import Mathlib

/-!
Shallow embedding of the OpenAPI-SpecMaster analysis core
(`src/utils/openapi-parser.ts`, the MCP server's analysis handlers, and the
shared OpenAPI types), together with theorems settling the specification
claims about it.

Modelling conventions used throughout:
* JSON runtime values are the inductive `JValue`; JavaScript numbers are
  rationals (floating-point rounding is not modelled, all arithmetic in the
  scoring heuristics is exact).
* JavaScript truthiness, `String.prototype.includes`, `toUpperCase`,
  `toLowerCase`, `split('/').pop()`, first-occurrence `replace` and the
  default lexicographic `Array.sort` are modelled by explicit structural
  functions over `String.data`, so that every definition evaluates inside
  the kernel.
* Code that can raise a runtime `TypeError` is modelled in
  `Except String`; the error payload mirrors the JavaScript error kind.
* Unbounded JavaScript recursion through `$ref` lookups is modelled with an
  explicit stack-depth budget (`fuel`); exhausting it models a stack
  overflow.  Plain structural traversals need no fuel.
-/

namespace SpecMaster

/-! ## JavaScript-semantics helpers -/

/-- JS truthiness of an optional string (`undefined` and `""` are falsy). -/
def jsTruthyStr : Option String → Bool
  | some s => decide (s ≠ "")
  | none => false

/-- JS `a || d` for an optional string `a` and default `d`. -/
def jsOrStr (a : Option String) (d : String) : String :=
  match a with
  | some s => if s = "" then d else s
  | none => d

/-- JS truthiness of an optional rational (`undefined` and `0` are falsy). -/
def jsTruthyNum : Option ℚ → Bool
  | some q => decide (q ≠ 0)
  | none => false

/-- Lower-case a string, character by character (models `toLowerCase` on
ASCII data; the repository only compares ASCII keywords). -/
def lowerS (s : String) : String := ⟨s.data.map Char.toLower⟩

/-- Upper-case a string, character by character (models `toUpperCase`). -/
def upperS (s : String) : String := ⟨s.data.map Char.toUpper⟩

/-- Contiguous-sublist test on character lists. -/
def listInfix (pat : List Char) : List Char → Bool
  | [] => pat.isPrefixOf []
  | c :: t => pat.isPrefixOf (c :: t) || listInfix pat t

/-- Models `s.includes(sub)` (JS substring containment). -/
def jsIncludes (s sub : String) : Bool := listInfix sub.data s.data

/-- Models `s.split('/').pop()`: the substring after the last slash. -/
def lastSeg (s : String) : String :=
  ⟨(s.data.reverse.takeWhile (fun c => c ≠ '/')).reverse⟩

/-- First-occurrence replacement on character lists. -/
def replaceFirstL (pat rep : List Char) : List Char → List Char
  | [] => if pat.isPrefixOf [] then rep else []
  | c :: t =>
    if pat.isPrefixOf (c :: t) then rep ++ (c :: t).drop pat.length
    else c :: replaceFirstL pat rep t

/-- Models `s.replace(pat, rep)` with string arguments (JS replaces only the
first occurrence). -/
def jsReplaceFirst (s pat rep : String) : String :=
  ⟨replaceFirstL pat.data rep.data s.data⟩

/-- Code-unit comparison of characters, as JS `<` on strings uses. -/
def lexLe : List Char → List Char → Bool
  | [], _ => true
  | _ :: _, [] => false
  | a :: as, b :: bs => if a = b then lexLe as bs else decide (a.toNat < b.toNat)

/-- Lexicographic string order (the default JS `Array.prototype.sort`
comparator for the ASCII names used here). -/
def strLe (a b : String) : Bool := lexLe a.data b.data

/-- Insert into a sorted list, keeping it sorted by `strLe`. -/
def insSorted (s : String) : List String → List String
  | [] => [s]
  | t :: ts => if strLe s t then s :: t :: ts else t :: insSorted s ts

/-- Models `Array.from(set).sort()` for string sets. -/
def sortStrings (l : List String) : List String := l.foldr insSorted []

/-- Models `Set.prototype.add`: append the element unless already present. -/
def jsInsert (l : List String) (s : String) : List String :=
  if s ∈ l then l else l ++ [s]

/-- Build a JS `Set` (insertion-ordered, duplicate-free list) from an
occurrence list. -/
def setFromList (l : List String) : List String := l.foldl jsInsert []

/-- Models `Math.round` (round half toward positive infinity). -/
def jsRound (q : ℚ) : ℤ := ⌊q + 1 / 2⌋

/-- Models assigning `m[k] = v` on a JS object kept as an association list:
an existing key is overwritten in place, a new key is appended. -/
def jsUpsert {α : Type} (l : List (String × α)) (k : String) (v : α) :
    List (String × α) :=
  match l with
  | [] => [(k, v)]
  | (k0, v0) :: t => if k0 = k then (k, v) :: t else (k0, v0) :: jsUpsert t k v

/-! ## JSON runtime values -/

/-- A parsed JSON value as the JavaScript runtime sees it. -/
inductive JValue where
  | null
  | bool (b : Bool)
  | num (q : ℚ)
  | str (s : String)
  | arr (l : List JValue)
  | obj (kvs : List (String × JValue))

/-- JS truthiness of a `JValue` (`null`, `false`, `0` and `""` are falsy;
every array and object is truthy). -/
def truthy : JValue → Bool
  | .null => false
  | .bool b => b
  | .num q => decide (q ≠ 0)
  | .str s => decide (s ≠ "")
  | .arr _ => true
  | .obj _ => true

/-- Property access `v[k]` on an object value (the analysis code only reads
properties from JSON objects). -/
def jGet : JValue → String → Option JValue
  | .obj kvs, k => kvs.lookup k
  | _, _ => none

/-! ## `findRefs` and `findUnusedSchemas` (MCP server handler)

`findUnusedSchemas` walks the raw JSON document: every `$ref` string found
anywhere under `paths` and `components` marks its final path segment as a
used schema name; with `includeIndirectReferences` the used set is repeatedly
re-scanned against the component schema bodies until its size stops growing.
-/

/-- The `$ref` name contributed by one object node: a truthy string-valued
`$ref` property contributes its final path segment when that is nonempty. -/
def refNameOf (kvs : List (String × JValue)) : List String :=
  match kvs.lookup "$ref" with
  | some (.str r) =>
    if r = "" then [] else
      (if lastSeg r = "" then [] else [lastSeg r])
  | _ => []

/-- Models the server's recursive `findRefs`: collect, in traversal order,
the final path segment of every truthy string `$ref` property in the tree.
Primitives are skipped; arrays recurse into elements, objects into values. -/
def findRefs : JValue → List String
  | .null => []
  | .bool _ => []
  | .num _ => []
  | .str _ => []
  | .arr l => l.attach.flatMap (fun x => findRefs x.1)
  | .obj kvs => refNameOf kvs ++ kvs.attach.flatMap (fun x => findRefs x.1.2)
termination_by v => sizeOf v
decreasing_by
  · have := List.sizeOf_lt_of_mem x.2
    simp only [JValue.arr.sizeOf_spec]
    omega
  · have h1 := List.sizeOf_lt_of_mem x.2
    have h2 : sizeOf x.1.2 < sizeOf x.1 := by
      obtain ⟨⟨a, b⟩, hm⟩ := x
      simp +arith
    simp only [JValue.obj.sizeOf_spec]
    omega

/-- One pass of the indirect-reference loop body: for each name in the used
set (snapshot order), add the refs found in that name's component schema. -/
def closureStep (schemas : List (String × JValue)) (used : List String) :
    List String :=
  used.foldl
    (fun acc n =>
      match schemas.lookup n with
      | some b => (findRefs b).foldl jsInsert acc
      | none => acc)
    used

/-- The `while (usedSchemas.size !== previousSize)` loop, with an explicit
iteration budget (the loop adds at least one name per continued iteration,
so any budget at least the size of the name universe reaches the result). -/
def closureLoop (schemas : List (String × JValue)) :
    ℕ → List String → List String
  | 0, u => u
  | f + 1, u =>
    let n := closureStep schemas u
    if n.length = u.length then u else closureLoop schemas f n

/-- The structured content of the `findUnusedSchemas` report. -/
structure UnusedReport where
  totalSchemas : ℕ
  usedSchemas : List String
  unusedSchemas : List String
  unusedCount : ℕ
  usagePercentage : ℤ

/-- Models `findUnusedSchemas(args)` over the raw `paths` and `components`
JSON of the loaded document.  Returns `none` when the guard
`!this.currentSpec.components?.schemas` rejects the call (the schemas map is
modelled as a JSON object, matching its declared type).  Division by a zero
schema count (JS would produce `NaN`) is not modelled; theorems about the
percentage assume at least one schema. -/
def findUnusedSchemas (paths components : JValue)
    (includeIndirectReferences : Bool) : Option UnusedReport :=
  match jGet components "schemas" with
  | some (.obj kvs) =>
    let used0 := setFromList (findRefs paths ++ findRefs components)
    let used :=
      if includeIndirectReferences then
        closureLoop kvs (kvs.length + used0.length + 1) used0
      else used0
    let allSchemas := kvs.map Prod.fst
    let unused := allSchemas.filter (fun n => decide (n ∉ used))
    some
      { totalSchemas := allSchemas.length
        usedSchemas := sortStrings used
        unusedSchemas := sortStrings unused
        unusedCount := unused.length
        usagePercentage :=
          jsRound ((used.length : ℚ) / (allSchemas.length : ℚ) * 100) }
  | _ => none

/-- The reachable-name set exactly as the specification words it: every
`$ref` target appearing under `paths` and `components`, closed under
re-scanning each discovered name's component schema body. -/
inductive SchemaReachable (paths components : JValue)
    (kvs : List (String × JValue)) : String → Prop
  | base (n : String) (h : n ∈ findRefs paths ++ findRefs components) :
      SchemaReachable paths components kvs n
  | step (m n : String) (b : JValue)
      (hm : SchemaReachable paths components kvs m)
      (hb : kvs.lookup m = some b) (hn : n ∈ findRefs b) :
      SchemaReachable paths components kvs n

/-! ### Set/sort lemmas for the reachable-set argument -/

theorem mem_jsInsert (acc : List String) (s x : String) :
    x ∈ jsInsert acc s ↔ x ∈ acc ∨ x = s := by
  unfold jsInsert
  split
  · constructor
    · exact fun h => Or.inl h
    · rintro (h | rfl)
      · exact h
      · assumption
  · simp [or_comm]

theorem mem_foldl_jsInsert (l acc : List String) (x : String) :
    x ∈ l.foldl jsInsert acc ↔ x ∈ acc ∨ x ∈ l := by
  induction l generalizing acc with
  | nil => simp
  | cons h t ih =>
    simp only [List.foldl_cons, ih, mem_jsInsert, List.mem_cons]
    tauto

theorem foldl_jsInsert_eq_self (l acc : List String)
    (h : ∀ x ∈ l, x ∈ acc) : l.foldl jsInsert acc = acc := by
  induction l with
  | nil => rfl
  | cons hd t ih =>
    have hhd : hd ∈ acc := h hd (List.mem_cons_self hd t)
    simp only [List.foldl_cons, jsInsert, if_pos hhd]
    exact ih (fun x hx => h x (List.mem_cons_of_mem hd hx))

theorem mem_setFromList (l : List String) (x : String) :
    x ∈ setFromList l ↔ x ∈ l := by
  unfold setFromList
  rw [mem_foldl_jsInsert]
  simp

theorem mem_insSorted (s x : String) (l : List String) :
    x ∈ insSorted s l ↔ x = s ∨ x ∈ l := by
  induction l with
  | nil => simp [insSorted]
  | cons h t ih =>
    unfold insSorted
    split
    · simp
    · simp only [List.mem_cons, ih]
      tauto

theorem mem_sortStrings (l : List String) (x : String) :
    x ∈ sortStrings l ↔ x ∈ l := by
  unfold sortStrings
  induction l with
  | nil => simp
  | cons h t ih =>
    simp only [List.foldr_cons, mem_insSorted, List.mem_cons]
    rw [ih]

theorem length_insSorted (s : String) (l : List String) :
    (insSorted s l).length = l.length + 1 := by
  induction l with
  | nil => rfl
  | cons h t ih =>
    unfold insSorted
    split
    · simp
    · simp [ih]

theorem length_sortStrings (l : List String) :
    (sortStrings l).length = l.length := by
  unfold sortStrings
  induction l with
  | nil => rfl
  | cons h t ih => simp [length_insSorted, ih]

theorem mem_of_lookup {α : Type} (k : String) (l : List (String × α)) (v : α)
    (h : l.lookup k = some v) : (k, v) ∈ l := by
  induction l with
  | nil => simp [List.lookup] at h
  | cons hd t ih =>
    obtain ⟨k0, v0⟩ := hd
    rw [List.lookup] at h
    by_cases hk : k = k0
    · subst hk
      simp only [beq_self_eq_true] at h
      simp only [Option.some.injEq] at h
      subst h
      exact List.mem_cons_self _ _
    · have hf : (k == k0) = false := beq_eq_false_iff_ne.mpr hk
      rw [hf] at h
      exact List.mem_cons_of_mem _ (ih h)

/-- Every ref found in a member value of an object occurs in the refs of the
whole object. -/
theorem findRefs_mem_of_value {kvs : List (String × JValue)} {k : String}
    {v : JValue} (hm : (k, v) ∈ kvs) {x : String} (hx : x ∈ findRefs v) :
    x ∈ findRefs (.obj kvs) := by
  rw [findRefs]
  apply List.mem_append_right
  rw [List.mem_flatMap]
  exact ⟨⟨(k, v), hm⟩, List.mem_attach _ _, hx⟩

/-- With the component schemas sitting inside `components`, every ref found
in a looked-up schema body already occurs in `findRefs components`. -/
theorem findRefs_lookup_subset {components : JValue}
    {kvs : List (String × JValue)}
    (hs : jGet components "schemas" = some (.obj kvs))
    {n : String} {b : JValue} (hb : kvs.lookup n = some b)
    {x : String} (hx : x ∈ findRefs b) : x ∈ findRefs components := by
  match components, hs with
  | .obj ckvs, hs =>
    simp only [jGet] at hs
    have h1 : x ∈ findRefs (JValue.obj kvs) :=
      findRefs_mem_of_value (mem_of_lookup n kvs b hb) hx
    exact findRefs_mem_of_value (mem_of_lookup _ ckvs _ hs) h1

theorem closureStep_eq_self (kvs : List (String × JValue))
    (used : List String)
    (H : ∀ n b, kvs.lookup n = some b → ∀ x ∈ findRefs b, x ∈ used) :
    closureStep kvs used = used := by
  unfold closureStep
  have : ∀ l : List String,
      l.foldl
        (fun acc n =>
          match kvs.lookup n with
          | some b => (findRefs b).foldl jsInsert acc
          | none => acc)
        used = used := by
    intro l
    induction l with
    | nil => rfl
    | cons h t ih =>
      simp only [List.foldl_cons]
      cases hl : kvs.lookup h with
      | none => simpa [hl] using ih
      | some b =>
        simp only [hl]
        rw [foldl_jsInsert_eq_self _ _ (H h b hl)]
        exact ih
  exact this used

theorem closureLoop_eq_self (kvs : List (String × JValue)) (u : List String)
    (h : closureStep kvs u = u) : ∀ f, closureLoop kvs f u = u := by
  intro f
  cases f with
  | zero => rfl
  | succ f => simp [closureLoop, h]

theorem schemaReachable_iff_mem_base {paths components : JValue}
    {kvs : List (String × JValue)}
    (hs : jGet components "schemas" = some (.obj kvs)) (n : String) :
    SchemaReachable paths components kvs n ↔
      n ∈ setFromList (findRefs paths ++ findRefs components) := by
  constructor
  · intro h
    induction h with
    | base m hm => exact (mem_setFromList _ _).mpr hm
    | step m x b hm hb hx ih =>
      exact (mem_setFromList _ _).mpr
        (List.mem_append_right _ (findRefs_lookup_subset hs hb hx))
  · intro h
    exact SchemaReachable.base n ((mem_setFromList _ _).mp h)

/-- Claim C9: `findUnusedSchemas` (with indirect references enabled, the
default) reports as unused exactly the component-schema names outside the
reachable set — the `$ref` targets under `paths` and `components` closed
under re-scanning discovered schema bodies — and the usage percentage is the
reachable count over the total, times 100, rounded. -/
theorem findUnusedSchemas_reports_unreachable
    (paths components : JValue) (kvs : List (String × JValue))
    (hs : jGet components "schemas" = some (.obj kvs)) :
    ∃ rep, findUnusedSchemas paths components true = some rep ∧
      (∀ n, n ∈ rep.usedSchemas ↔ SchemaReachable paths components kvs n) ∧
      (∀ n, n ∈ rep.unusedSchemas ↔
        n ∈ kvs.map Prod.fst ∧ ¬ SchemaReachable paths components kvs n) ∧
      (0 < kvs.length →
        rep.usagePercentage =
          jsRound ((rep.usedSchemas.length : ℚ) / (rep.totalSchemas : ℚ) * 100)) := by
  have hfix : closureStep kvs
      (setFromList (findRefs paths ++ findRefs components)) =
      setFromList (findRefs paths ++ findRefs components) := by
    apply closureStep_eq_self
    intro n b hb x hx
    exact (mem_setFromList _ _).mpr
      (List.mem_append_right _ (findRefs_lookup_subset hs hb hx))
  unfold findUnusedSchemas
  rw [hs]
  refine ⟨_, rfl, ?_, ?_, ?_⟩
  · intro n
    simp only [if_pos rfl, closureLoop_eq_self _ _ hfix,
      mem_sortStrings, schemaReachable_iff_mem_base hs]
    simp [closureLoop_eq_self _ _ hfix]
  · intro n
    simp only [closureLoop_eq_self _ _ hfix, mem_sortStrings,
      List.mem_filter, decide_eq_true_eq, schemaReachable_iff_mem_base hs]
    simp [closureLoop_eq_self _ _ hfix, mem_sortStrings]
  · intro _
    simp [closureLoop_eq_self _ _ hfix, length_sortStrings]

/-- Scenario E document: components `{A, B}` where `A` is referenced from
`paths` and `A` itself references `B`. -/
def scenarioEPaths : JValue :=
  .obj [("/p", .obj [("get", .obj [("$ref", .str "#/components/schemas/A")])])]

/-- Scenario E components object. -/
def scenarioEComponents : JValue :=
  .obj [("schemas", .obj
    [("A", .obj [("$ref", .str "#/components/schemas/B")]),
     ("B", .obj [("type", .str "string")])])]

/-- Witness for C9 at the Scenario E document. -/
theorem findUnusedSchemas_reports_unreachable_witness :
    ∃ rep, findUnusedSchemas scenarioEPaths scenarioEComponents true = some rep ∧
      (∀ n, n ∈ rep.usedSchemas ↔
        SchemaReachable scenarioEPaths scenarioEComponents
          [("A", .obj [("$ref", .str "#/components/schemas/B")]),
           ("B", .obj [("type", .str "string")])] n) ∧
      (∀ n, n ∈ rep.unusedSchemas ↔
        n ∈ ([("A", JValue.obj [("$ref", .str "#/components/schemas/B")]),
              ("B", JValue.obj [("type", .str "string")])].map Prod.fst) ∧
        ¬ SchemaReachable scenarioEPaths scenarioEComponents
          [("A", .obj [("$ref", .str "#/components/schemas/B")]),
           ("B", .obj [("type", .str "string")])] n) ∧
      (0 < ([("A", JValue.obj [("$ref", .str "#/components/schemas/B")]),
             ("B", JValue.obj [("type", .str "string")])] :
               List (String × JValue)).length →
        rep.usagePercentage =
          jsRound ((rep.usedSchemas.length : ℚ) / (rep.totalSchemas : ℚ) * 100)) :=
  findUnusedSchemas_reports_unreachable scenarioEPaths scenarioEComponents
    [("A", .obj [("$ref", .str "#/components/schemas/B")]),
     ("B", .obj [("type", .str "string")])] rfl

/-! ## Typed schema nodes and the Swagger-2 schema conversion
(`OpenAPIParser.convertSwagger2Schema`) -/

/-- The non-recursive attributes of a schema node.  The conversion code
reads/writes `type`, `format`, `description`, `enum`, `default`, `example`
and `required`; the example validator additionally reads `pattern`,
`minLength`, `maxLength`, `minimum` and `maximum`. -/
structure SchAttrs where
  type : Option String := none
  format : Option String := none
  description : Option String := none
  pattern : Option String := none
  enumV : Option (List JValue) := none
  dflt : Option JValue := none
  exampleV : Option JValue := none
  minimum : Option ℚ := none
  maximum : Option ℚ := none
  minLength : Option ℚ := none
  maxLength : Option ℚ := none
  required : Option (List String) := none

/-- A schema-or-reference node.  A JSON node carrying a `$ref` behaves as a
pure reference in every code path modelled here, so it is a separate
constructor. -/
inductive JSchema where
  | ref (r : String)
  | node (a : SchAttrs) (items : Option JSchema)
      (properties : Option (List (String × JSchema)))
      (allOf : Option (List JSchema))

/-- The schema the conversion returns for an absent (`undefined`) input:
`if (!schema) return {}`. -/
def emptySchema : JSchema := .node {} none none none

mutual

/-- Models `convertSwagger2Schema` on a present schema node: a `$ref` has its
`#/definitions/` prefix rewritten to `#/components/schemas/`; otherwise
`type/format/description/enum/default/example` are copied, `items`,
`properties` and `allOf` are converted recursively, and `required` is copied
when present.  Constraint fields (`pattern`, bounds) are dropped, as in the
source. -/
def convertSwagger2Schema : JSchema → JSchema
  | .ref r =>
    .ref ("#/components/schemas/" ++ jsReplaceFirst r "#/definitions/" "")
  | .node a it pr ao =>
    .node
      { type := a.type, format := a.format, description := a.description,
        enumV := a.enumV, dflt := a.dflt, exampleV := a.exampleV,
        required := a.required }
      (convOptSchema it) (convOptProps pr) (convOptAllOf ao)

/-- Conversion of an optional `items` schema (absent stays absent). -/
def convOptSchema : Option JSchema → Option JSchema
  | none => none
  | some s => some (convertSwagger2Schema s)

/-- Conversion of an optional `properties` map. -/
def convOptProps :
    Option (List (String × JSchema)) → Option (List (String × JSchema))
  | none => none
  | some l => some (convPropsList l)

/-- Conversion of each property value, keys unchanged. -/
def convPropsList : List (String × JSchema) → List (String × JSchema)
  | [] => []
  | (k, v) :: t => (k, convertSwagger2Schema v) :: convPropsList t

/-- Conversion of an optional `allOf` member list. -/
def convOptAllOf : Option (List JSchema) → Option (List JSchema)
  | none => none
  | some l => some (convAllOfList l)

/-- Conversion of each `allOf` member. -/
def convAllOfList : List JSchema → List JSchema
  | [] => []
  | s :: t => convertSwagger2Schema s :: convAllOfList t

end

/-- Models the `if (!schema) return {}` entry guard of
`convertSwagger2Schema` for call sites whose argument may be absent. -/
def convertSwagger2SchemaOpt : Option JSchema → JSchema
  | none => emptySchema
  | some s => convertSwagger2Schema s

/-! ### Structural projection: type, properties, required and items at every
nesting level -/

/-- The structural skeleton of a schema: its `type`, its `required` list,
and the shapes of its `properties`, `items` and `allOf` children. -/
inductive SchProj where
  | refP
  | nodeP (type : Option String) (required : Option (List String))
      (properties : Option (List (String × SchProj)))
      (items : Option SchProj) (allOf : Option (List SchProj))

mutual

/-- Project a schema node onto its structural skeleton. -/
def projSchema : JSchema → SchProj
  | .ref _ => .refP
  | .node a it pr ao =>
    .nodeP a.type a.required (projOptProps pr) (projOptSchema it)
      (projOptAllOf ao)

/-- Projection of an optional schema. -/
def projOptSchema : Option JSchema → Option SchProj
  | none => none
  | some s => some (projSchema s)

/-- Projection of an optional `properties` map. -/
def projOptProps :
    Option (List (String × JSchema)) → Option (List (String × SchProj))
  | none => none
  | some l => some (projPropsList l)

/-- Projection of each property value. -/
def projPropsList : List (String × JSchema) → List (String × SchProj)
  | [] => []
  | (k, v) :: t => (k, projSchema v) :: projPropsList t

/-- Projection of an optional `allOf` list. -/
def projOptAllOf : Option (List JSchema) → Option (List SchProj)
  | none => none
  | some l => some (projAllOfList l)

/-- Projection of each `allOf` member. -/
def projAllOfList : List JSchema → List SchProj
  | [] => []
  | s :: t => projSchema s :: projAllOfList t

end

mutual

/-- The Swagger-2 schema conversion preserves the structural skeleton:
type, required list, property names and nesting are unchanged at every
level. -/
theorem projSchema_conv :
    ∀ s : JSchema, projSchema (convertSwagger2Schema s) = projSchema s
  | .ref r => rfl
  | .node a it pr ao => by
    rw [convertSwagger2Schema, projSchema, projSchema]
    rw [projOptSchema_conv it, projOptProps_conv pr, projOptAllOf_conv ao]

/-- Skeleton preservation for optional schemas. -/
theorem projOptSchema_conv :
    ∀ o : Option JSchema, projOptSchema (convOptSchema o) = projOptSchema o
  | none => rfl
  | some s => by
    rw [convOptSchema, projOptSchema, projOptSchema, projSchema_conv s]

/-- Skeleton preservation for optional property maps. -/
theorem projOptProps_conv :
    ∀ o : Option (List (String × JSchema)),
      projOptProps (convOptProps o) = projOptProps o
  | none => rfl
  | some l => by
    rw [convOptProps, projOptProps, projOptProps, projPropsList_conv l]

/-- Skeleton preservation for property lists. -/
theorem projPropsList_conv :
    ∀ l : List (String × JSchema),
      projPropsList (convPropsList l) = projPropsList l
  | [] => rfl
  | (k, v) :: t => by
    rw [convPropsList, projPropsList, projPropsList, projSchema_conv v,
      projPropsList_conv t]

/-- Skeleton preservation for optional `allOf` lists. -/
theorem projOptAllOf_conv :
    ∀ o : Option (List JSchema), projOptAllOf (convOptAllOf o) = projOptAllOf o
  | none => rfl
  | some l => by
    rw [convOptAllOf, projOptAllOf, projOptAllOf, projAllOfList_conv l]

/-- Skeleton preservation for `allOf` member lists. -/
theorem projAllOfList_conv :
    ∀ l : List JSchema, projAllOfList (convAllOfList l) = projAllOfList l
  | [] => rfl
  | s :: t => by
    rw [convAllOfList, projAllOfList, projAllOfList, projSchema_conv s,
      projAllOfList_conv t]

end

/-! ## Typed document model (`src/types/openapi.ts`, plus the raw Swagger-2
fields the converter reads) -/

/-- A parameter object.  `pin` models the JSON field `in`; the
`type/format/enum/default` fields carry Swagger-2 simple-parameter data. -/
structure Param where
  name : String
  pin : String
  description : Option String := none
  required : Option Bool := none
  deprecated : Option Bool := none
  schema : Option JSchema := none
  type : Option String := none
  format : Option String := none
  enumV : Option (List JValue) := none
  dflt : Option JValue := none

/-- A media-type object (`schema` plus a literal `example`). -/
structure MediaTypeV where
  schema : Option JSchema := none
  exampleV : Option JValue := none

/-- A request body: a content map from media type to media-type object. -/
structure RequestBody where
  description : Option String := none
  required : Option Bool := none
  content : List (String × MediaTypeV) := []

/-- A response object; `schema` is the raw Swagger-2 response schema the
converter reads, `content` the OpenAPI-3 form. -/
structure ResponseV where
  description : Option String := none
  schema : Option JSchema := none
  content : Option (List (String × MediaTypeV)) := none
  headers : Option JValue := none

/-- An operation object.  `security` entries are kept as raw JSON values:
only their presence and count are ever read. -/
structure Operation where
  tags : Option (List String) := none
  summary : Option String := none
  description : Option String := none
  operationId : Option String := none
  parameters : Option (List Param) := none
  requestBody : Option RequestBody := none
  responses : List (String × ResponseV) := []
  deprecated : Option Bool := none
  security : Option (List JValue) := none

/-- A path item: one optional operation per HTTP method plus path-level
parameters. -/
structure PathItem where
  get : Option Operation := none
  put : Option Operation := none
  post : Option Operation := none
  delete : Option Operation := none
  options : Option Operation := none
  head : Option Operation := none
  patch : Option Operation := none
  trace : Option Operation := none
  parameters : Option (List Param) := none

/-- A tag declaration. -/
structure TagV where
  name : String
  description : Option String := none

/-- The info block (all fields optional: the converter reads a raw Swagger-2
document defensively with `?.` and `||` defaults). -/
structure InfoV where
  title : Option String := none
  version : Option String := none
  description : Option String := none
  termsOfService : Option String := none
  contact : Option JValue := none
  license : Option JValue := none

/-- A server entry. -/
structure ServerV where
  url : String
  description : Option String := none

/-- The components block (only `schemas` is read by the modelled code). -/
structure ComponentsV where
  schemas : Option (List (String × JSchema)) := none

/-- A parsed document: the union of the OpenAPI-3 shape and the raw
Swagger-2 fields (`swagger`, `host`, `basePath`, `schemes`, `definitions`)
the converter reads.  `paths` is modelled as always present, matching its
mandatory type. -/
structure Doc where
  openapi : Option String := none
  swagger : Option String := none
  info : Option InfoV := none
  host : Option String := none
  basePath : Option String := none
  schemes : Option (List String) := none
  servers : Option (List ServerV) := none
  paths : List (String × PathItem) := []
  definitions : Option (List (String × JSchema)) := none
  components : Option ComponentsV := none
  tags : Option (List TagV) := none

/-! ## Swagger-2 → OpenAPI-3 conversion
(`convertSwagger2Parameter/Response/Operation/ToOpenAPI3`) -/

/-- Models `convertSwagger2Parameter`: name/in/description/required/
deprecated are copied; the schema is the converted inline schema, or a node
built from the simple-parameter fields when no schema is present. -/
def convertSwagger2Parameter (p : Param) : Param :=
  { name := p.name, pin := p.pin, description := p.description,
    required := p.required, deprecated := p.deprecated,
    schema := some
      (match p.schema with
       | some s => convertSwagger2Schema s
       | none =>
         .node { type := p.type, format := p.format, enumV := p.enumV,
                 dflt := p.dflt } none none none) }

/-- Models `convertSwagger2Response`: the description defaults to
`"Response"`, a present schema becomes the `application/json` content
schema, truthy headers pass through. -/
def convertSwagger2Response (r : ResponseV) : ResponseV :=
  { description := some (jsOrStr r.description "Response"),
    content :=
      match r.schema with
      | some s =>
        some [("application/json", { schema := some (convertSwagger2Schema s) })]
      | none => none,
    headers :=
      match r.headers with
      | some h => if truthy h then some h else none
      | none => none }

/-- The fresh request body the first `formData` parameter creates. -/
def formDataInitBody : RequestBody :=
  { content := [("application/x-www-form-urlencoded",
      { schema := some (.node { type := some "object" } none (some []) none) })] }

/-- The property schema one `formData` parameter contributes. -/
def formDataFieldSchema (p : Param) : JSchema :=
  .node { type := p.type, description := p.description } none none none

/-- Models the `operation.parameters.forEach` loop of
`convertSwagger2Operation`: a `body` parameter replaces the request body
wholesale with a JSON one; a `formData` parameter writes one property into
`requestBody.content['application/x-www-form-urlencoded'].schema.properties`
(creating the request body first when there is none), which raises a
`TypeError` when that chain is broken — in particular when an earlier `body`
parameter installed a JSON-only content map; anything else is converted as a
regular parameter. -/
def convertOpParams :
    List Param → Option RequestBody →
      Except String (List Param × Option RequestBody)
  | [], rb => .ok ([], rb)
  | p :: rest, rb =>
    if p.pin = "body" then
      convertOpParams rest
        (some { description := p.description, required := p.required,
                content := [("application/json",
                  { schema := some (convertSwagger2SchemaOpt p.schema) })] })
    else if p.pin = "formData" then
      let rb0 : RequestBody :=
        match rb with
        | none => formDataInitBody
        | some r => r
      match rb0.content.lookup "application/x-www-form-urlencoded" with
      | none => .error "TypeError: Cannot read properties of undefined"
      | some mt =>
        match mt.schema with
        | none => .error "TypeError: Cannot set properties of undefined"
        | some (.ref _) => .error "TypeError: Cannot set properties of undefined"
        | some (.node a it props ao) =>
          match props with
          | none => .error "TypeError: Cannot set properties of undefined"
          | some pl =>
            convertOpParams rest
              (some { rb0 with
                content := jsUpsert rb0.content
                  "application/x-www-form-urlencoded"
                  { mt with schema := some (JSchema.node a it
                      (some (jsUpsert pl p.name (formDataFieldSchema p))) ao) } })
    else
      match convertOpParams rest rb with
      | .error e => .error e
      | .ok (ps, r) => .ok (convertSwagger2Parameter p :: ps, r)

/-- Models `convertSwagger2Operation`: metadata fields are copied (note:
`security` is not), responses are converted entrywise, and the parameter
loop produces the converted parameter list (only set when nonempty) and the
optional request body. -/
def convertSwagger2Operation (op : Operation) : Except String Operation :=
  let responses := op.responses.map (fun cr => (cr.1, convertSwagger2Response cr.2))
  match op.parameters with
  | none =>
    .ok { summary := op.summary, description := op.description,
          operationId := op.operationId, tags := op.tags,
          deprecated := op.deprecated, responses := responses }
  | some l =>
    match convertOpParams l none with
    | .error e => .error e
    | .ok (ps, rb) =>
      .ok { summary := op.summary, description := op.description,
            operationId := op.operationId, tags := op.tags,
            deprecated := op.deprecated,
            parameters := if 0 < ps.length then some ps else none,
            requestBody := rb, responses := responses }

/-- Convert an optional operation. -/
def convOptOp : Option Operation → Except String (Option Operation)
  | none => .ok none
  | some o => (convertSwagger2Operation o).map some

/-- Models the per-path conversion: each of the seven converted methods
(`trace` is not converted) independently, path-level parameters mapped. -/
def convertSwagger2PathItem (pi : PathItem) : Except String PathItem := do
  let g ← convOptOp pi.get
  let po ← convOptOp pi.post
  let pu ← convOptOp pi.put
  let de ← convOptOp pi.delete
  let pa ← convOptOp pi.patch
  let oo ← convOptOp pi.options
  let he ← convOptOp pi.head
  pure { get := g, post := po, put := pu, delete := de, patch := pa,
         options := oo, head := he,
         parameters := pi.parameters.map (fun l => l.map convertSwagger2Parameter) }

/-- Convert every path entry in order. -/
def convertPathsList :
    List (String × PathItem) → Except String (List (String × PathItem))
  | [] => .ok []
  | (p, pi) :: t => do
    let pi2 ← convertSwagger2PathItem pi
    let t2 ← convertPathsList t
    pure ((p, pi2) :: t2)

/-- Models `convertSwagger2Definitions`: convert each definition body. -/
def convertSwagger2Definitions (defs : List (String × JSchema)) :
    List (String × JSchema) :=
  defs.map (fun kv => (kv.1, convertSwagger2Schema kv.2))

/-- Models `convertSwagger2ToOpenAPI3`: builds the `openapi: "3.0.0"`
document with defaulted info, a synthesized server when `host` or
`basePath` is truthy, copied tags, converted paths, and definitions moved
to `components.schemas`. -/
def convertSwagger2ToOpenAPI3 (swagger2 : Doc) : Except String Doc := do
  let ps ← convertPathsList swagger2.paths
  pure
    { openapi := some "3.0.0",
      info := some
        { title := some (jsOrStr (swagger2.info.bind InfoV.title) "API"),
          version := some (jsOrStr (swagger2.info.bind InfoV.version) "1.0.0"),
          description := swagger2.info.bind InfoV.description,
          termsOfService := swagger2.info.bind InfoV.termsOfService,
          contact := swagger2.info.bind InfoV.contact,
          license := swagger2.info.bind InfoV.license },
      servers :=
        if jsTruthyStr swagger2.host || jsTruthyStr swagger2.basePath then
          some [{ url := jsOrStr (swagger2.schemes.bind List.head?) "https"
                    ++ "://" ++ jsOrStr swagger2.host "localhost"
                    ++ swagger2.basePath.getD "",
                  description := some "Converted from Swagger 2.0" }]
        else none,
      tags := swagger2.tags,
      paths := ps,
      components :=
        match swagger2.definitions with
        | some defs => some { schemas := some (convertSwagger2Definitions defs) }
        | none => none }

/-! ## Parsing and session state (`parseFromText`, `loadOpenAPISpec`) -/

/-- Prefix test over character data (models `String.prototype.startsWith`). -/
def jsStartsWith (s pre : String) : Bool := pre.data.isPrefixOf s.data

/-- The Swagger-2 discriminator check:
`this.spec.swagger && this.spec.swagger.startsWith('2.')`. -/
def isSwagger2 (d : Doc) : Bool :=
  match d.swagger with
  | some s => decide (s ≠ "") && jsStartsWith s "2."
  | none => false

/-- The outcome of running `JSON.parse` / `yaml.load` on the source text:
either both parsers throw, or one of them yields a value (null and undefined
results are `none`). -/
inductive ParseInput where
  | badText
  | parsedTo (d : Option Doc)

/-- Models `parseFromText`, including its mutation of `this.spec`: the
parsed value is assigned to the parser's spec slot *before* the
discriminator validation runs, so a rejected document still replaces the
previously loaded one; only a text that fails both parsers leaves the slot
untouched.  Returns the thrown-or-returned result together with the new
parser spec slot. -/
def parseFromText (inp : ParseInput) (ps : Option Doc) :
    Except String Doc × Option Doc :=
  match inp with
  | .badText =>
    (.error "Invalid OpenAPI specification format. Please provide valid JSON or YAML.",
     ps)
  | .parsedTo none => (.error "Invalid specification format.", none)
  | .parsedTo (some d) =>
    if isSwagger2 d then
      match convertSwagger2ToOpenAPI3 d with
      | .ok c => (.ok c, some c)
      | .error e => (.error e, some d)
    else if jsTruthyStr d.openapi then (.ok d, some d)
    else (.error "Invalid OpenAPI specification. Missing openapi version.", some d)

/-! ## Endpoint extraction and derived metrics (`extractEndpoints`) -/

/-- The fixed method iteration order of `extractEndpoints`. -/
def methodsOrder : List String :=
  ["get", "post", "put", "delete", "patch", "options", "head", "trace"]

/-- Dynamic method lookup `pathItem[method]`. -/
def pathItemGet (pi : PathItem) (m : String) : Option Operation :=
  if m = "get" then pi.get
  else if m = "post" then pi.post
  else if m = "put" then pi.put
  else if m = "delete" then pi.delete
  else if m = "patch" then pi.patch
  else if m = "options" then pi.options
  else if m = "head" then pi.head
  else if m = "trace" then pi.trace
  else none

/-- Models `extractParameters`: path-item-level parameters first, then
operation-level ones, each passed through unchanged. -/
def extractParameters (operationParams pathParams : List Param) : List Param :=
  pathParams ++ operationParams

/-- Models `extractResponses`: an entrywise identity copy. -/
def extractResponses (responses : List (String × ResponseV)) :
    List (String × ResponseV) :=
  responses.map (fun cr => cr)

/-- The complexity bucket of an endpoint. -/
inductive Complexity where
  | low
  | medium
  | high
deriving DecidableEq

/-- The estimated-response-time bucket of an endpoint. -/
inductive RespTime where
  | fast
  | medium
  | slow
deriving DecidableEq

/-- Whether the operation declares a nonempty security list. -/
def hasSecurity (op : Operation) : Bool :=
  match op.security with
  | some l => decide (0 < l.length)
  | none => false

/-- Whether the operation declares more than one tag. -/
def hasMultipleTags (op : Operation) : Bool :=
  match op.tags with
  | some l => decide (1 < l.length)
  | none => false

/-- Models `calculateComplexity`: 0.5 per parameter, 2 for a request body,
0.3 per response code, 1 for a nonempty security list, 0.5 for more than one
tag; `low` up to 2, `medium` up to 5, `high` beyond. -/
def calculateComplexity (op : Operation) (parameters : List Param)
    (hasRequestBody : Bool) : Complexity :=
  let score : ℚ := 0
  let score := score + (parameters.length : ℚ) * (1 / 2)
  let score := score + (if hasRequestBody then 2 else 0)
  let score := score + (op.responses.length : ℚ) * (3 / 10)
  let score := score + (if hasSecurity op then 1 else 0)
  let score := score + (if hasMultipleTags op then 1 / 2 else 0)
  if score ≤ 2 then .low else if score ≤ 5 then .medium else .high

/-- Models `x?.toLowerCase().includes(sub)` on an optional string. -/
def optIncludes (o : Option String) (sub : String) : Bool :=
  match o with
  | some s => jsIncludes (lowerS s) sub
  | none => false

/-- Models `estimateResponseTime`: minus 1 when the operation id mentions
"get" or the summary mentions "get" or "list"; plus 1 for a request body;
plus 1 for more than five parameters; plus 1 when the summary or a parameter
name mentions "search" or "filter"; `fast` up to 0, `medium` up to 1,
`slow` beyond. -/
def estimateResponseTime (op : Operation) (parameters : List Param)
    (hasRequestBody : Bool) : RespTime :=
  let score : ℤ := 0
  let score :=
    if optIncludes op.operationId "get" || optIncludes op.summary "get"
        || optIncludes op.summary "list"
    then score - 1 else score
  let score := if hasRequestBody then score + 1 else score
  let score := if 5 < parameters.length then score + 1 else score
  let score :=
    if optIncludes op.summary "search" || optIncludes op.summary "filter"
        || parameters.any (fun p =>
            jsIncludes (lowerS p.name) "search"
              || jsIncludes (lowerS p.name) "filter")
    then score + 1 else score
  if score ≤ 0 then .fast else if score ≤ 1 then .medium else .slow

/-- Models `generateBusinessContext`: a templated sentence keyed on summary
keywords, falling back to a generic sentence. -/
def generateBusinessContext (op : Operation) : String :=
  let tags := jsOrStr (op.tags.map (String.intercalate ", ")) "General"
  let summary := jsOrStr op.summary "No summary available"
  if optIncludes op.summary "create" || optIncludes op.summary "add" then
    "Business Impact: Creates new " ++ lowerS tags
      ++ " resources. Use this endpoint to add new data to the system."
  else if optIncludes op.summary "get" || optIncludes op.summary "list"
      || optIncludes op.summary "fetch" then
    "Business Impact: Retrieves " ++ lowerS tags
      ++ " information. Use this endpoint to access and display data to users."
  else if optIncludes op.summary "update" || optIncludes op.summary "modify" then
    "Business Impact: Updates existing " ++ lowerS tags
      ++ " resources. Use this endpoint to modify data based on user actions."
  else if optIncludes op.summary "delete" || optIncludes op.summary "remove" then
    "Business Impact: Removes " ++ lowerS tags
      ++ " resources. Use this endpoint to clean up or delete data as requested by users."
  else
    "Business Impact: " ++ summary ++ " - Part of " ++ tags ++ " functionality."

/-- Whether some declared operation parameter name mentions `sub`. -/
def someParamNamed (op : Operation) (sub : String) : Bool :=
  match op.parameters with
  | some l => l.any (fun p => jsIncludes (lowerS p.name) sub)
  | none => false

/-- Models `generateAISuggestions`: the fixed hint table keyed on method,
`{id}` placeholder presence and limit/filter parameter names. -/
def generateAISuggestions (op : Operation) (path method : String) :
    List String :=
  let m := lowerS method
  let base : List String :=
    if m = "get" && jsIncludes path "\x7bid\x7d" then
      ["💡 Perfect for fetching specific record details in your app",
       "🔍 Can be used for detail views, edit forms, or data validation"]
    else if m = "get" && !jsIncludes path "\x7bid\x7d" then
      ["📋 Ideal for listing data in tables, dropdowns, or search results",
       "🔄 Consider implementing pagination if not already present"]
    else if m = "post" then
      ["✨ Use for creating new records from user forms",
       "💾 Remember to validate input data before submission"]
    else if m = "put" || m = "patch" then
      ["✏️ Perfect for edit forms and data updates",
       "🔒 Ensure proper authorization before allowing updates"]
    else if m = "delete" then
      ["🗑️ Implement confirmation dialogs for better UX",
       "⚠️ Consider soft deletes for important business data"]
    else []
  let base :=
    if someParamNamed op "limit" then
      base ++ ["⚡ Supports pagination - great for performance"]
    else base
  if someParamNamed op "filter" then
    base ++ ["🎯 Supports filtering - perfect for search functionality"]
  else base

/-- Replace every non-alphanumeric character with an underscore
(models `path.replace(/[^a-zA-Z0-9]/g, '_')`). -/
def sanitizeId (path : String) : String :=
  ⟨path.data.map (fun c => if c.isAlphanum then c else '_')⟩

/-- Split on a separator character (models `String.prototype.split`). -/
def splitCharAux (c : Char) : List Char → List Char → List String
  | [], acc => [⟨acc.reverse⟩]
  | x :: t, acc =>
    if x = c then (⟨acc.reverse⟩ : String) :: splitCharAux c t []
    else splitCharAux c t (x :: acc)

/-- `s.split(c)`. -/
def splitChar (c : Char) (s : String) : List String := splitCharAux c s.data []

/-- One extracted endpoint record. -/
structure Endpoint where
  id : String
  path : String
  method : String
  operation : Operation
  tags : List String
  summary : Option String := none
  description : Option String := none
  parameters : List Param
  requestBody : Option RequestBody := none
  responses : List (String × ResponseV)
  deprecated : Bool
  businessContext : String
  aiSuggestions : List String
  complexity : Complexity
  security : Option (List JValue) := none
  pathSegments : List String
  hasPathParams : Bool
  hasQueryParams : Bool
  hasRequestBody : Bool
  responseTypes : List String
  estimatedResponseTime : RespTime

/-- Build the endpoint record for one (path, method, operation) triple,
exactly as the body of the `extractEndpoints` loop does. -/
def mkEndpoint (path : String) (pi : PathItem) (m : String)
    (op : Operation) : Endpoint :=
  let parameters :=
    extractParameters (op.parameters.getD []) (pi.parameters.getD [])
  let hasRequestBody := op.requestBody.isSome
  { id := upperS m ++ "_" ++ sanitizeId path,
    path := path,
    method := upperS m,
    operation := op,
    tags := op.tags.getD [],
    summary := op.summary,
    description := op.description,
    parameters := parameters,
    requestBody := op.requestBody,
    responses := extractResponses op.responses,
    deprecated := op.deprecated.getD false,
    businessContext := generateBusinessContext op,
    aiSuggestions := generateAISuggestions op path m,
    complexity := calculateComplexity op parameters hasRequestBody,
    security := op.security,
    pathSegments := (splitChar '/' path).filter (fun s => decide (s ≠ "")),
    hasPathParams := jsIncludes path "\x7b",
    hasQueryParams := parameters.any (fun p => p.pin = "query"),
    hasRequestBody := hasRequestBody,
    responseTypes := op.responses.map Prod.fst,
    estimatedResponseTime := estimateResponseTime op parameters hasRequestBody }

/-- Models `extractEndpoints`: walk paths in order, methods in the fixed
order, one record per present operation; an empty parser yields `[]`. -/
def extractEndpoints (spec : Option Doc) : List Endpoint :=
  match spec with
  | none => []
  | some d =>
    d.paths.flatMap (fun pr =>
      methodsOrder.filterMap (fun m =>
        (pathItemGet pr.2 m).map (mkEndpoint pr.1 pr.2 m)))

/-- Models `getAllTags`: the sorted, deduplicated union of declared tag
names and the tags of every operation, read from the parser's spec slot. -/
def getAllTags (spec : Option Doc) : List String :=
  match spec with
  | none => []
  | some d =>
    sortStrings (setFromList
      ((d.tags.getD []).map TagV.name ++
        d.paths.flatMap (fun pr =>
          methodsOrder.flatMap (fun m =>
            match pathItemGet pr.2 m with
            | some op => op.tags.getD []
            | none => []))))

/-- The MCP server's session state: the parser's spec slot plus the current
document and endpoint list. -/
structure ServerState where
  parserSpec : Option Doc := none
  currentSpec : Option Doc := none
  currentEndpoints : List Endpoint := []

/-- Models the `loadOpenAPISpec` handler: on a parse/validation failure the
error is rethrown with a prefix and `currentSpec`/`currentEndpoints` stay;
on success both are replaced from the freshly parsed document. -/
def loadOpenAPISpec (inp : ParseInput) (st : ServerState) :
    Except String Unit × ServerState :=
  match parseFromText inp st.parserSpec with
  | (.error e, ps) =>
    (.error ("Failed to load OpenAPI spec: " ++ e), { st with parserSpec := ps })
  | (.ok spec, ps) =>
    (.ok (), { parserSpec := ps, currentSpec := some spec,
               currentEndpoints := extractEndpoints ps })

/-! ## Example validation (`validateRequestExamples` → `validateExample`) -/

/-- One violation record produced by the example validator. -/
structure Violation where
  path : String
  error : String
  expected : Option String := none
  actual : Option String := none
deriving DecidableEq

/-- JS `typeof` on a JSON value. -/
def jsTypeOf : JValue → String
  | .null => "object"
  | .bool _ => "boolean"
  | .num _ => "number"
  | .str _ => "string"
  | .arr _ => "object"
  | .obj _ => "object"

/-- `Array.isArray`. -/
def isArr : JValue → Bool
  | .arr _ => true
  | _ => false

/-- JS `example.length`: defined for strings and arrays, `undefined`
(here `none`) otherwise (objects without a `length` property). -/
def jsLength : JValue → Option ℚ
  | .str s => some s.data.length
  | .arr l => some l.length
  | _ => none

/-- `x < m` where `x` may be `undefined` (false then). -/
def optLtNum : Option ℚ → ℚ → Bool
  | some x, m => decide (x < m)
  | none, _ => false

/-- `x > m` where `x` may be `undefined`. -/
def optGtNum : Option ℚ → ℚ → Bool
  | some x, m => decide (m < x)
  | none, _ => false

/-- JS `example < m` under numeric coercion, modelled for numbers and
booleans; other shapes compare like `NaN` (false). -/
def jsLtNum : JValue → ℚ → Bool
  | .num x, m => decide (x < m)
  | .bool b, m => decide ((if b then (1 : ℚ) else 0) < m)
  | _, _ => false

/-- JS `example > m` under numeric coercion, same scope as `jsLtNum`. -/
def jsGtNum : JValue → ℚ → Bool
  | .num x, m => decide (m < x)
  | .bool b, m => decide (m < (if b then (1 : ℚ) else 0))
  | _, _ => false

/-- SameValueZero, as `Array.prototype.includes` uses: structural on
primitives; distinct arrays/objects in a parsed document are never
reference-equal. -/
def svz : JValue → JValue → Bool
  | .null, .null => true
  | .bool a, .bool b => a = b
  | .num a, .num b => a = b
  | .str a, .str b => a = b
  | _, _ => false

/-- Coarse JS stringification for violation messages (array element joins
are not modelled further). -/
def jvalShow : JValue → String
  | .null => "null"
  | .bool b => if b then "true" else "false"
  | .num q => toString q
  | .str s => s
  | .arr _ => ""
  | .obj _ => "[object Object]"

/-- `l.join(', ')` over stringified values. -/
def joinShow (l : List JValue) : String :=
  String.intercalate ", " (l.map jvalShow)

/-- Whether `k` is a canonical index string of an array of length `n`. -/
def parseDecGo : List Char → ℕ → Option ℕ
  | [], acc => some acc
  | c :: t, acc =>
    if c.isDigit then parseDecGo t (acc * 10 + (c.toNat - 48)) else none

/-- Canonical-array-index membership, as the `in` operator sees it. -/
def arrIndexMem (k : String) (n : ℕ) : Bool :=
  match k.data with
  | [] => false
  | ['0'] => decide (0 < n)
  | c :: t =>
    if c = '0' then false
    else
      match parseDecGo (c :: t) 0 with
      | some i => decide (i < n)
      | none => false

/-- JS `k in example`: key membership on objects, index-or-`length`
membership on arrays, a `TypeError` on primitives. -/
def jsHasProp (v : JValue) (k : String) : Except String Bool :=
  match v with
  | .obj kvs => .ok (kvs.any (fun kv => kv.1 = k))
  | .arr l => .ok (decide (k = "length") || arrIndexMem k l.length)
  | _ =>
    .error "TypeError: Cannot use in operator to search for property in primitive"

/-- `Object.entries(example)`: own entries of objects, index entries of
arrays, character entries of strings, empty for other primitives. -/
def jsEntries : JValue → List (String × JValue)
  | .obj kvs => kvs
  | .arr l => l.enum.map (fun p => (toString p.1, p.2))
  | .str s => s.data.enum.map (fun p => (toString p.1, JValue.str ⟨[p.2]⟩))
  | _ => []

/-- The string-branch checks (length bounds under truthy guards, pattern
via the abstract regex tester `rtest`, enum membership). -/
def strChecks (a : SchAttrs) (rtest : String → JValue → Bool) (ex : JValue)
    (path : String) : List Violation :=
  let lenV := jsLength ex
  (if jsTruthyNum a.minLength && optLtNum lenV (a.minLength.getD 0) then
    [{ path := path,
       error := "String too short: " ++
         (match lenV with | some q => toString q | none => "undefined") ++
         " < " ++ toString (a.minLength.getD 0) }]
  else []) ++
  (if jsTruthyNum a.maxLength && optGtNum lenV (a.maxLength.getD 0) then
    [{ path := path,
       error := "String too long: " ++
         (match lenV with | some q => toString q | none => "undefined") ++
         " > " ++ toString (a.maxLength.getD 0) }]
  else []) ++
  (if jsTruthyStr a.pattern && !rtest (a.pattern.getD "") ex then
    [{ path := path,
       error := "String doesn't match pattern: " ++ a.pattern.getD "" }]
  else []) ++
  (if a.enumV.isSome && !((a.enumV.getD []).any (fun e => svz e ex)) then
    [{ path := path, error := "Value not in enum: " ++ joinShow (a.enumV.getD []) }]
  else [])

/-- The number-branch checks (`!== undefined` guards, JS comparisons). -/
def numChecks (a : SchAttrs) (ex : JValue) (path : String) : List Violation :=
  (if a.minimum.isSome && jsLtNum ex (a.minimum.getD 0) then
    [{ path := path,
       error := "Number too small: " ++ jvalShow ex ++ " < "
         ++ toString (a.minimum.getD 0) }]
  else []) ++
  (if a.maximum.isSome && jsGtNum ex (a.maximum.getD 0) then
    [{ path := path,
       error := "Number too large: " ++ jvalShow ex ++ " > "
         ++ toString (a.maximum.getD 0) }]
  else [])

/-- The `schema.required.forEach` loop: each required property is looked up
in the example with the `in` operator (which throws on primitives). -/
def requiredErrorsGo (ex : JValue) (path : String) :
    List String → Except String (List Violation)
  | [] => .ok []
  | r :: t => do
    let b ← jsHasProp ex r
    let rest ← requiredErrorsGo ex path t
    pure ((if b then []
      else [{ path := path ++ "." ++ r, error := "Required property missing" }])
      ++ rest)

/-- The required-property check under its truthiness guard. -/
def requiredErrors (req : Option (List String)) (ex : JValue)
    (path : String) : Except String (List Violation) :=
  match req with
  | none => .ok []
  | some l => requiredErrorsGo ex path l

/-- The `Object.entries(example)` loop of the object branch: a matched
property recurses (via `recur`), an unmatched one is an error only in
strict mode. -/
def entriesErrors
    (recur : JValue → JSchema → String → Except String (List Violation))
    (strict : Bool) (pl : List (String × JSchema)) (path : String) :
    List (String × JValue) → Except String (List Violation)
  | [] => .ok []
  | (k, v) :: t => do
    let here ←
      match pl.lookup k with
      | some psch => recur v psch (path ++ "." ++ k)
      | none =>
        pure (if strict then
          [{ path := path ++ "." ++ k,
             error := "Additional property not allowed in strict mode" }]
        else [])
    let rest ← entriesErrors recur strict pl path t
    pure (here ++ rest)

/-- The `example.forEach` loop of the array branch: recursing into each
element, or a `TypeError` when the example is not an array. -/
def arrayErrorsGo
    (recur : JValue → JSchema → String → Except String (List Violation))
    (isch : JSchema) (path : String) :
    List JValue → ℕ → Except String (List Violation)
  | [], _ => .ok []
  | v :: t, i => do
    let here ← recur v isch (path ++ "[" ++ toString i ++ "]")
    let rest ← arrayErrorsGo recur isch path t (i + 1)
    pure (here ++ rest)

/-- Array-branch dispatch: only arrays have `forEach`. -/
def arrayErrors
    (recur : JValue → JSchema → String → Except String (List Violation))
    (isch : JSchema) (ex : JValue) (path : String) :
    Except String (List Violation) :=
  match ex with
  | .arr l => arrayErrorsGo recur isch path l 0
  | _ => .error "TypeError: example.forEach is not a function"

/-- Models `validateExample(example, schema, path)` from
`validateRequestExamples`: a falsy example validates vacuously; a `$ref`
resolves against the component schemas (absent targets validate vacuously);
with a truthy declared `type` the branches run in source order: the
type-compatibility check (`integer` counts as `number`, arrays are
distinguished from objects), the string checks, the number checks, the
object branch (required properties via `in`, then entry recursion) and the
array branch (`forEach`).  `fuel` bounds the `$ref`/nesting recursion depth
(the source recurses on the JS stack); `rtest` abstracts `new
RegExp(p).test(x)`. -/
def validateExample (comps : List (String × JSchema))
    (rtest : String → JValue → Bool) (strict : Bool) :
    ℕ → JValue → JSchema → String → Except String (List Violation)
  | fuel, ex, sch, path =>
    if truthy ex then
      match fuel with
      | 0 => .error "RangeError: Maximum call stack size exceeded"
      | f + 1 =>
        match sch with
        | .ref r =>
          if r = "" then .ok []
          else
            match comps.lookup (lastSeg r) with
            | some s2 => validateExample comps rtest strict f ex s2 path
            | none => .ok []
        | .node a items props _ =>
          match a.type with
          | none => .ok []
          | some t =>
            if t = "" then .ok []
            else
              let actualType := if isArr ex then "array" else jsTypeOf ex
              let expectedType := if t = "integer" then "number" else t
              let e1 :=
                if expectedType = actualType then []
                else
                  [{ path := path,
                     error := "Type mismatch: expected " ++ expectedType
                       ++ ", got " ++ actualType,
                     expected := some expectedType,
                     actual := some actualType }]
              let e2 := if t = "string" then strChecks a rtest ex path else []
              let e3 :=
                if t = "number" || t = "integer" then numChecks a ex path
                else []
              do
                let e4 ←
                  if t == "object" && props.isSome then do
                    let r1 ← requiredErrors a.required ex path
                    let r2 ← entriesErrors
                      (fun v ps pth =>
                        validateExample comps rtest strict f v ps pth)
                      strict (props.getD []) path (jsEntries ex)
                    pure (r1 ++ r2)
                  else pure []
                let e5 ←
                  if t == "array" && items.isSome then
                    arrayErrors
                      (fun v ps pth =>
                        validateExample comps rtest strict f v ps pth)
                      (items.getD emptySchema) ex path
                  else pure []
                pure (e1 ++ e2 ++ e3 ++ e4 ++ e5)
    else .ok []

/-! ## Claim C10: falsy examples validate vacuously -/

/-- Claim C10: for every schema and every falsy example value (`0`, `""`,
`false`, `null`), example validation returns the empty violation list,
whatever the schema's constraints, the strict mode, the component map, the
regex tester and the recursion budget. -/
theorem validateExample_falsy_example_vacuous :
    ∀ (comps : List (String × JSchema)) (rtest : String → JValue → Bool)
      (strict : Bool) (fuel : ℕ) (sch : JSchema) (path : String),
      validateExample comps rtest strict fuel (.num 0) sch path = .ok [] ∧
      validateExample comps rtest strict fuel (.str "") sch path = .ok [] ∧
      validateExample comps rtest strict fuel (.bool false) sch path = .ok [] ∧
      validateExample comps rtest strict fuel .null sch path = .ok [] := by
  intro comps rtest strict fuel sch path
  refine ⟨?_, ?_, ?_, ?_⟩ <;> cases fuel <;> rfl

/-! ## Claim C2: the validator throws on type-mismatched examples -/

/-- An array schema with number items. -/
def c2ArraySchema : JSchema :=
  .node { type := some "array" }
    (some (.node { type := some "number" } none none none)) none none

/-- An object schema with one declared property and a required list. -/
def c2ObjectSchema : JSchema :=
  .node { type := some "object", required := some ["a"] } none
    (some [("a", .node { type := some "number" } none none none)]) none

/-- Claim C2 is false on the code (code bug): validating the number example
`5` against an array schema reaches `example.forEach` and raises a
`TypeError`, and validating it against an object schema with a required
property reaches `reqProp in example` and raises a `TypeError` — the
validator does not run to completion on these mismatched examples. -/
theorem validateExample_throws_on_mismatched_example :
    validateExample [] (fun _ _ => false) false 5 (.num 5) c2ArraySchema
        "requestBody" =
      .error "TypeError: example.forEach is not a function" ∧
    validateExample [] (fun _ _ => false) false 5 (.num 5) c2ObjectSchema
        "requestBody" =
      .error "TypeError: Cannot use in operator to search for property in primitive" :=
  ⟨rfl, rfl⟩

/-! ## Claims C4 and C5: the scoring heuristics -/

/-- The complexity score exactly as the specification words it. -/
def specComplexityScore (op : Operation) (parameters : List Param)
    (hasRequestBody : Bool) : ℚ :=
  (parameters.length : ℚ) * (1 / 2) + (if hasRequestBody then 2 else 0)
    + (op.responses.length : ℚ) * (3 / 10)
    + (if hasSecurity op then 1 else 0)
    + (if hasMultipleTags op then 1 / 2 else 0)

/-- The complexity classification as the specification words it. -/
def specComplexityClass (q : ℚ) : Complexity :=
  if q ≤ 2 then .low else if q ≤ 5 then .medium else .high

/-- Claim C4: the computed complexity equals the specification's formula
(0.5 per parameter, 2 for a body, 0.3 per response code, 1 for security,
0.5 for more than one tag, bucketed at 2 and 5), and an operation with six
parameters, a request body and at least one response is classified high. -/
theorem calculateComplexity_matches_spec :
    (∀ op ps hb, calculateComplexity op ps hb =
      specComplexityClass (specComplexityScore op ps hb)) ∧
    (∀ op (ps : List Param) hb, ps.length = 6 → hb = true →
      0 < op.responses.length → calculateComplexity op ps hb = .high) := by
  have hmain : ∀ op ps hb, calculateComplexity op ps hb =
      specComplexityClass (specComplexityScore op ps hb) := by
    intro op ps hb
    simp only [calculateComplexity, specComplexityClass, specComplexityScore,
      zero_add]
  refine ⟨hmain, ?_⟩
  intro op ps hb h6 hb1 hr
  subst hb1
  rw [hmain]
  have hr' : (1 : ℚ) ≤ (op.responses.length : ℚ) := by exact_mod_cast hr
  have hsec : (0 : ℚ) ≤ (if hasSecurity op then 1 else 0) := by
    split <;> norm_num
  have htag : (0 : ℚ) ≤ (if hasMultipleTags op then 1 / 2 else 0) := by
    split <;> norm_num
  have hresp : (3 : ℚ) / 10 ≤ (op.responses.length : ℚ) * (3 / 10) := by
    nlinarith
  have hscore : (5 : ℚ) < specComplexityScore op ps true := by
    unfold specComplexityScore
    rw [h6]
    norm_num
    linarith
  unfold specComplexityClass
  rw [if_neg (by linarith), if_neg (by linarith)]

/-- Witness data for C4: six query parameters. -/
def sixParams : List Param :=
  [{ name := "p1", pin := "query" }, { name := "p2", pin := "query" },
   { name := "p3", pin := "query" }, { name := "p4", pin := "query" },
   { name := "p5", pin := "query" }, { name := "p6", pin := "query" }]

/-- Witness data for C4: one response. -/
def c4Op : Operation := { responses := [("200", { description := some "ok" })] }

/-- Witness for C4: the six-parameter, request-body, one-response operation
is classified high. -/
theorem calculateComplexity_matches_spec_witness :
    sixParams.length = 6 ∧ 0 < c4Op.responses.length ∧
    calculateComplexity c4Op sixParams true = .high :=
  ⟨rfl, by decide,
    calculateComplexity_matches_spec.2 c4Op sixParams true rfl rfl (by decide)⟩

/-- The response-time score as claim C5 words it: the decrement fires when
the operation id or the summary mentions "get" or "list". -/
def claimRTScore (op : Operation) (parameters : List Param)
    (hasRequestBody : Bool) : ℤ :=
  (if optIncludes op.operationId "get" || optIncludes op.operationId "list"
      || optIncludes op.summary "get" || optIncludes op.summary "list"
   then -1 else 0)
  + (if hasRequestBody then 1 else 0)
  + (if 5 < parameters.length then 1 else 0)
  + (if optIncludes op.summary "search" || optIncludes op.summary "filter"
        || parameters.any (fun p =>
            jsIncludes (lowerS p.name) "search"
              || jsIncludes (lowerS p.name) "filter")
     then 1 else 0)

/-- The response-time score as the code computes it: the operation id is
checked only for "get", never for "list". -/
def amendedRTScore (op : Operation) (parameters : List Param)
    (hasRequestBody : Bool) : ℤ :=
  (if optIncludes op.operationId "get" || optIncludes op.summary "get"
      || optIncludes op.summary "list"
   then -1 else 0)
  + (if hasRequestBody then 1 else 0)
  + (if 5 < parameters.length then 1 else 0)
  + (if optIncludes op.summary "search" || optIncludes op.summary "filter"
        || parameters.any (fun p =>
            jsIncludes (lowerS p.name) "search"
              || jsIncludes (lowerS p.name) "filter")
     then 1 else 0)

/-- The response-time classification (≤ 0 fast, ≤ 1 medium, else slow). -/
def claimRTClass (z : ℤ) : RespTime :=
  if z ≤ 0 then .fast else if z ≤ 1 then .medium else .slow

/-- Counterexample to claim C5 as stated: an operation whose id is
"listPets" (no summary) with a request body scores 1 (`medium`) in the code
— the code never checks the operation id for "list" — while the claimed
formula scores 0 (`fast`). -/
theorem estimateResponseTime_claim_false :
    estimateResponseTime { operationId := some "listPets" } [] true
        = .medium ∧
    claimRTClass (claimRTScore { operationId := some "listPets" } [] true)
        = .fast ∧
    estimateResponseTime { operationId := some "listPets" } [] true ≠
      claimRTClass (claimRTScore { operationId := some "listPets" } [] true) :=
  ⟨rfl, rfl, by decide⟩

/-- Claim C5 as amended: the decrement fires when the operation id mentions
"get", or the summary mentions "get" or "list" (the id is not checked for
"list"); the other increments and the fast/medium/slow buckets are as
claimed. -/
theorem estimateResponseTime_matches_amended :
    ∀ op ps hb, estimateResponseTime op ps hb =
      claimRTClass (amendedRTScore op ps hb) := by
  intro op ps hb
  unfold estimateResponseTime claimRTClass amendedRTScore
  split_ifs <;> first | rfl | omega

/-! ## Claim C1: failed loads and session state -/

/-- A loaded document carrying one declared tag "a". -/
def loadedTagDocA : Doc :=
  { openapi := some "3.0.0", tags := some [{ name := "a" }] }

/-- A parseable document with neither discriminator, carrying tag "b". -/
def rejectedTagDocB : Doc := { tags := some [{ name := "b" }] }

/-- Claim C1 is false on the code (code bug): after a successful load of a
document tagged "a", loading a parseable document that lacks both
discriminators fails with the validation error and leaves `currentSpec` and
`currentEndpoints` intact — but the parser's spec slot now holds the
rejected document, so the tag listing read from the parser reports "b"
instead of "a": the failed load is observable through subsequent queries. -/
theorem loadOpenAPISpec_failed_load_corrupts_parser_state :
    (loadOpenAPISpec (.parsedTo (some rejectedTagDocB))
        (loadOpenAPISpec (.parsedTo (some loadedTagDocA)) {}).2).1 =
      .error "Failed to load OpenAPI spec: Invalid OpenAPI specification. Missing openapi version." ∧
    (loadOpenAPISpec (.parsedTo (some rejectedTagDocB))
        (loadOpenAPISpec (.parsedTo (some loadedTagDocA)) {}).2).2.currentSpec =
      (loadOpenAPISpec (.parsedTo (some loadedTagDocA)) {}).2.currentSpec ∧
    (loadOpenAPISpec (.parsedTo (some rejectedTagDocB))
        (loadOpenAPISpec (.parsedTo (some loadedTagDocA)) {}).2).2.currentEndpoints =
      (loadOpenAPISpec (.parsedTo (some loadedTagDocA)) {}).2.currentEndpoints ∧
    getAllTags ((loadOpenAPISpec (.parsedTo (some loadedTagDocA)) {}).2.parserSpec)
      = ["a"] ∧
    getAllTags ((loadOpenAPISpec (.parsedTo (some rejectedTagDocB))
        (loadOpenAPISpec (.parsedTo (some loadedTagDocA)) {}).2).2.parserSpec)
      = ["b"] :=
  ⟨rfl, rfl, rfl, rfl, rfl⟩

/-! ## Claim C8: discriminator dispatch and Swagger-2 normalization -/

/-- Association-list lookup commutes with mapping over values. -/
theorem lookup_map_values {α β : Type} (l : List (String × α)) (g : α → β)
    (c : String) :
    (l.map (fun cr => (cr.1, g cr.2))).lookup c = (l.lookup c).map g := by
  induction l with
  | nil => rfl
  | cons hd t ih =>
    obtain ⟨k, v⟩ := hd
    simp only [List.map_cons, List.lookup]
    cases hck : c == k
    · simpa [hck] using ih
    · simp [hck]

/-- A successfully converted operation's responses are the entrywise
conversion of the source responses. -/
theorem convertSwagger2Operation_responses (op op2 : Operation)
    (h : convertSwagger2Operation op = .ok op2) :
    op2.responses =
      op.responses.map (fun cr => (cr.1, convertSwagger2Response cr.2)) := by
  unfold convertSwagger2Operation at h
  split at h
  · simp only [Except.ok.injEq] at h
    subst h
    rfl
  · split at h
    · exact absurd h (by simp)
    · simp only [Except.ok.injEq] at h
      subst h
      rfl

/-- The Scenario B document:
`{swagger:"2.0", info:{title:"T",version:"1"},
  paths:{"/x":{get:{responses:{"200":{description:"ok"}}}}}}`. -/
def scenarioBDoc : Doc :=
  { swagger := some "2.0",
    info := some { title := some "T", version := some "1" },
    paths := [("/x",
      { get := some { responses := [("200", { description := some "ok" })] } })] }

/-- A document already carrying the `openapi` discriminator. -/
def passthroughDoc : Doc :=
  { openapi := some "3.0.1",
    info := some { title := some "P", version := some "2" },
    paths := [] }

/-- A parseable document carrying neither discriminator. -/
def noDiscriminatorDoc : Doc := { info := some { title := some "N" } }

/-- Claim C8: a `swagger: "2.x"` document is normalized (the result of
`parseFromText` is exactly the converter's output, which carries
`openapi: "3.0.0"` and preserves every response description, via entrywise
response conversion defaulting only empty descriptions); a document already
carrying `openapi` passes through unchanged; a parsed document carrying
neither discriminator fails with the validation error.  The last two
conjuncts check Scenario B concretely. -/
theorem parseFromText_swagger2_normalization :
    (∀ d ps, isSwagger2 d = true →
      (parseFromText (.parsedTo (some d)) ps).1 = convertSwagger2ToOpenAPI3 d) ∧
    (∀ d d2, convertSwagger2ToOpenAPI3 d = .ok d2 →
      d2.openapi = some "3.0.0") ∧
    (∀ op op2 c r dd, convertSwagger2Operation op = .ok op2 →
      op.responses.lookup c = some r → r.description = some dd → dd ≠ "" →
      op2.responses.lookup c = some (convertSwagger2Response r) ∧
      (convertSwagger2Response r).description = some dd) ∧
    (∀ d ps, isSwagger2 d = false → jsTruthyStr d.openapi = true →
      (parseFromText (.parsedTo (some d)) ps).1 = .ok d) ∧
    (∀ d ps, isSwagger2 d = false → jsTruthyStr d.openapi = false →
      (parseFromText (.parsedTo (some d)) ps).1 =
        .error "Invalid OpenAPI specification. Missing openapi version.") ∧
    ((parseFromText (.parsedTo (some scenarioBDoc)) none).1.map Doc.openapi =
      .ok (some "3.0.0")) ∧
    ((parseFromText (.parsedTo (some scenarioBDoc)) none).1.map
        (fun d => ((d.paths.lookup "/x").bind PathItem.get).map
          (fun op => (op.responses.lookup "200").bind ResponseV.description)) =
      .ok (some (some "ok"))) := by
  refine ⟨?_, ?_, ?_, ?_, ?_, rfl, rfl⟩
  · intro d ps h
    simp only [parseFromText, h, if_true]
    cases hc : convertSwagger2ToOpenAPI3 d <;> simp [hc]
  · intro d d2 h
    unfold convertSwagger2ToOpenAPI3 at h
    cases hc : convertPathsList d.paths with
    | error e =>
      rw [hc] at h
      exact absurd h (by simp [Bind.bind, Except.bind])
    | ok pl =>
      rw [hc] at h
      simp only [Bind.bind, Except.bind, pure, Except.pure, Except.ok.injEq] at h
      subst h
      rfl
  · intro op op2 c r dd hconv hlook hdesc hne
    constructor
    · rw [convertSwagger2Operation_responses op op2 hconv,
        lookup_map_values, hlook]
      rfl
    · unfold convertSwagger2Response
      simp only [hdesc, jsOrStr, if_neg hne]
  · intro d ps h1 h2
    simp [parseFromText, h1, h2]
  · intro d ps h1 h2
    simp [parseFromText, h1, h2]

/-- Witness for C8: the dispatch clauses at the Scenario B document, a
passthrough document and a discriminator-free document. -/
theorem parseFromText_swagger2_normalization_witness :
    isSwagger2 scenarioBDoc = true ∧
    (parseFromText (.parsedTo (some scenarioBDoc)) none).1 =
      convertSwagger2ToOpenAPI3 scenarioBDoc ∧
    isSwagger2 passthroughDoc = false ∧
    jsTruthyStr passthroughDoc.openapi = true ∧
    (parseFromText (.parsedTo (some passthroughDoc)) none).1 =
      .ok passthroughDoc ∧
    isSwagger2 noDiscriminatorDoc = false ∧
    jsTruthyStr noDiscriminatorDoc.openapi = false ∧
    (parseFromText (.parsedTo (some noDiscriminatorDoc)) none).1 =
      .error "Invalid OpenAPI specification. Missing openapi version." :=
  ⟨rfl,
   parseFromText_swagger2_normalization.1 scenarioBDoc none rfl,
   rfl, rfl,
   parseFromText_swagger2_normalization.2.2.2.1 passthroughDoc none rfl rfl,
   rfl, rfl,
   parseFromText_swagger2_normalization.2.2.2.2.1 noDiscriminatorDoc none rfl rfl⟩

/-! ## Claims C6 and C7: body and formData parameter conversion -/

/-- The request-body shape the formData accumulation maintains: a single
`application/x-www-form-urlencoded` entry whose object schema carries the
accumulated properties. -/
def formBody (pl : List (String × JSchema)) : RequestBody :=
  { content := [("application/x-www-form-urlencoded",
      { schema := some (.node { type := some "object" } none (some pl) none) })] }

/-- The request body encoded by an optional accumulated property list. -/
def encodeForm : Option (List (String × JSchema)) → Option RequestBody
  | none => none
  | some pl => some (formBody pl)

/-- The accumulated formData properties after a parameter list, starting
from an optional existing accumulation. -/
def formFold (o : Option (List (String × JSchema))) (l : List Param) :
    Option (List (String × JSchema)) :=
  l.foldl
    (fun acc p =>
      if p.pin = "formData" then
        some (jsUpsert (acc.getD []) p.name (formDataFieldSchema p))
      else acc)
    o

/-- A body-free, formData-free parameter list converts plainly: every entry
becomes a regular converted parameter and the request body is untouched. -/
theorem convertOpParams_plain (l : List Param) (rb : Option RequestBody)
    (h : ∀ p ∈ l, p.pin ≠ "body" ∧ p.pin ≠ "formData") :
    convertOpParams l rb = .ok (l.map convertSwagger2Parameter, rb) := by
  induction l with
  | nil => rfl
  | cons p t ih =>
    obtain ⟨h1, h2⟩ := h p (List.mem_cons_self _ _)
    simp only [convertOpParams, if_neg h1, if_neg h2,
      ih (fun q hq => (h q (List.mem_cons_of_mem _ hq))), List.map_cons]

/-- Processing a body-free prefix: the regular entries convert in order,
the formData entries fold into the accumulated form body, and processing
continues on the remainder. -/
theorem convertOpParams_append_nobody (l1 rest : List Param)
    (pl0 : Option (List (String × JSchema)))
    (hb : ∀ p ∈ l1, p.pin ≠ "body") :
    convertOpParams (l1 ++ rest) (encodeForm pl0) =
      match convertOpParams rest (encodeForm (formFold pl0 l1)) with
      | .ok (ps, rb) =>
        .ok (((l1.filter (fun p => !(p.pin == "formData"))).map
          convertSwagger2Parameter) ++ ps, rb)
      | .error e => .error e := by
  induction l1 generalizing pl0 with
  | nil =>
    simp only [List.nil_append, List.filter_nil, List.map_nil, formFold,
      List.foldl_nil]
    cases h : convertOpParams rest (encodeForm pl0) with
    | ok pr => obtain ⟨ps, rb⟩ := pr; simp [h]
    | error e => simp [h]
  | cons p t ih =>
    have hpb : p.pin ≠ "body" := hb p (List.mem_cons_self _ _)
    have hbt : ∀ q ∈ t, q.pin ≠ "body" := fun q hq =>
      hb q (List.mem_cons_of_mem _ hq)
    by_cases hpf : p.pin = "formData"
    · cases pl0 with
      | none =>
        have hstep : formFold none (p :: t) =
            formFold (some (jsUpsert [] p.name (formDataFieldSchema p))) t := by
          simp [formFold, hpf]
        simp only [List.cons_append, convertOpParams, if_neg hpb, if_pos hpf]
        show convertOpParams (t ++ rest)
            (encodeForm (some (jsUpsert [] p.name (formDataFieldSchema p)))) =
          match convertOpParams rest (encodeForm (formFold none (p :: t))) with
          | .ok (ps, rb) =>
            .ok ((((p :: t).filter (fun p => !(p.pin == "formData"))).map
              convertSwagger2Parameter) ++ ps, rb)
          | .error e => .error e
        rw [ih _ hbt, hstep]
        cases h : convertOpParams rest
            (encodeForm (formFold
              (some (jsUpsert [] p.name (formDataFieldSchema p))) t)) with
        | ok pr => obtain ⟨ps, rb⟩ := pr; simp [h, List.filter_cons, hpf]
        | error e => simp [h]
      | some pl =>
        have hstep : formFold (some pl) (p :: t) =
            formFold (some (jsUpsert pl p.name (formDataFieldSchema p))) t := by
          simp [formFold, hpf]
        simp only [List.cons_append, convertOpParams, if_neg hpb, if_pos hpf]
        show convertOpParams (t ++ rest)
            (encodeForm (some (jsUpsert pl p.name (formDataFieldSchema p)))) =
          match convertOpParams rest (encodeForm (formFold (some pl) (p :: t))) with
          | .ok (ps, rb) =>
            .ok ((((p :: t).filter (fun p => !(p.pin == "formData"))).map
              convertSwagger2Parameter) ++ ps, rb)
          | .error e => .error e
        rw [ih _ hbt, hstep]
        cases h : convertOpParams rest
            (encodeForm (formFold
              (some (jsUpsert pl p.name (formDataFieldSchema p))) t)) with
        | ok pr => obtain ⟨ps, rb⟩ := pr; simp [h, List.filter_cons, hpf]
        | error e => simp [h]
    · have hstep : formFold pl0 (p :: t) = formFold pl0 t := by
        simp [formFold, hpf]
      simp only [List.cons_append, convertOpParams, if_neg hpb, if_neg hpf,
        List.append_eq]
      rw [ih _ hbt, hstep]
      cases h : convertOpParams rest (encodeForm (formFold pl0 t)) with
      | ok pr => obtain ⟨ps, rb⟩ := pr; simp [h, List.filter_cons, hpf]
      | error e => simp [h]

/-- The JSON request body a `body` parameter installs. -/
def bodyRequestBody (bp : Param) : RequestBody :=
  { description := bp.description, required := bp.required,
    content := [("application/json",
      { schema := some (convertSwagger2SchemaOpt bp.schema) })] }

/-- Counterexample input for C6: a `body` parameter followed by a
`formData` parameter. -/
def c6BadOp : Operation :=
  { parameters := some
      [{ name := "payload", pin := "body" },
       { name := "f", pin := "formData", type := some "string" }],
    responses := [] }

/-- Claim C6 is false as stated: an operation with exactly one `body`
parameter does not always yield a request body — when a `formData`
parameter follows the body parameter, the conversion dereferences the
missing `application/x-www-form-urlencoded` content entry and throws a
`TypeError` instead. -/
theorem convertSwagger2Operation_body_then_formData_throws :
    convertSwagger2Operation c6BadOp =
      .error "TypeError: Cannot read properties of undefined" := rfl

/-- Claim C6 as amended (restricted to operations where no `formData`
parameter follows the body parameter): the conversion succeeds, the
operation gets exactly one request body — a single `application/json`
content entry wrapping the converted body-parameter schema — and that
schema is structurally equal (type, properties, required, at every nesting
level) to the original parameter schema. -/
theorem convertSwagger2Operation_single_body (op : Operation)
    (l1 l2 : List Param) (bp : Param)
    (hl : op.parameters = some (l1 ++ bp :: l2))
    (hbp : bp.pin = "body")
    (h1 : ∀ p ∈ l1, p.pin ≠ "body")
    (h2 : ∀ p ∈ l2, p.pin ≠ "body" ∧ p.pin ≠ "formData") :
    ∃ op2, convertSwagger2Operation op = .ok op2 ∧
      op2.requestBody = some (bodyRequestBody bp) ∧
      ∀ s, bp.schema = some s →
        projSchema (convertSwagger2SchemaOpt bp.schema) = projSchema s := by
  have hbody : convertOpParams (bp :: l2) (encodeForm (formFold none l1)) =
      .ok (l2.map convertSwagger2Parameter, some (bodyRequestBody bp)) := by
    simp only [convertOpParams, if_pos hbp]
    exact convertOpParams_plain l2 _ h2
  have hfold := convertOpParams_append_nobody l1 (bp :: l2) none h1
  rw [hbody] at hfold
  simp only [encodeForm] at hfold
  refine ⟨{ summary := op.summary, description := op.description,
            operationId := op.operationId, tags := op.tags,
            deprecated := op.deprecated,
            parameters :=
              if 0 < (((l1.filter (fun p => !(p.pin == "formData"))).map
                    convertSwagger2Parameter) ++
                  l2.map convertSwagger2Parameter).length
              then some (((l1.filter (fun p => !(p.pin == "formData"))).map
                    convertSwagger2Parameter) ++
                  l2.map convertSwagger2Parameter)
              else none,
            requestBody := some (bodyRequestBody bp),
            responses :=
              op.responses.map (fun cr => (cr.1, convertSwagger2Response cr.2)) },
    ?_, rfl, ?_⟩
  · simp only [convertSwagger2Operation, hl, hfold]
  · intro s hs
    rw [hs]
    exact projSchema_conv s

/-- Witness data for C6: a lone body parameter with a nested object
schema. -/
def c6GoodBody : Param :=
  { name := "payload", pin := "body", description := some "the body",
    required := some true,
    schema := some (.node { type := some "object", required := some ["x"] }
      none (some [("x", .node { type := some "string" } none none none)]) none) }

/-- Witness for C6 (amended) at an operation whose only parameter is the
body parameter. -/
theorem convertSwagger2Operation_single_body_witness :
    ∃ op2, convertSwagger2Operation
        { parameters := some [c6GoodBody], responses := [] } = .ok op2 ∧
      op2.requestBody = some (bodyRequestBody c6GoodBody) ∧
      ∀ s, c6GoodBody.schema = some s →
        projSchema (convertSwagger2SchemaOpt c6GoodBody.schema) = projSchema s :=
  convertSwagger2Operation_single_body
    { parameters := some [c6GoodBody], responses := [] } [] [] c6GoodBody
    rfl rfl (by simp) (by simp)

/-- The fold step a formData parameter applies to the accumulated
properties. -/
def formStep (acc : List (String × JSchema)) (p : Param) :
    List (String × JSchema) :=
  jsUpsert acc p.name (formDataFieldSchema p)

/-- `formFold` from an existing accumulation folds exactly the formData
entries. -/
theorem formFold_some (l : List Param) (pl : List (String × JSchema)) :
    formFold (some pl) l =
      some ((l.filter (fun p => p.pin == "formData")).foldl formStep pl) := by
  induction l generalizing pl with
  | nil => rfl
  | cons p t ih =>
    by_cases hpf : p.pin = "formData"
    · show formFold (if p.pin = "formData" then _ else _) t = _
      rw [if_pos hpf]
      rw [ih]
      simp [List.filter_cons, hpf, formStep]
    · show formFold (if p.pin = "formData" then _ else _) t = _
      rw [if_neg hpf]
      rw [ih]
      simp [List.filter_cons, hpf]

/-- `formFold` from nothing, on a list containing a formData entry, is the
fold of the formData entries from the empty accumulation. -/
theorem formFold_none_of_mem (l : List Param)
    (h : ∃ p ∈ l, p.pin = "formData") :
    formFold none l =
      some ((l.filter (fun p => p.pin == "formData")).foldl formStep []) := by
  induction l with
  | nil => simp at h
  | cons p t ih =>
    by_cases hpf : p.pin = "formData"
    · show formFold (if p.pin = "formData" then _ else _) t = _
      rw [if_pos hpf]
      rw [formFold_some]
      simp [List.filter_cons, hpf, formStep]
    · show formFold (if p.pin = "formData" then _ else _) t = _
      rw [if_neg hpf]
      obtain ⟨q, hq, hqf⟩ := h
      rcases List.mem_cons.mp hq with hq1 | hq2
      · exact absurd (hq1 ▸ hqf) hpf
      · rw [ih ⟨q, hq2, hqf⟩]
        simp [List.filter_cons, hpf]

/-- Looking up the upserted key finds the new value; other keys are
unaffected. -/
theorem jsUpsert_lookup {α : Type} (l : List (String × α)) (k k' : String)
    (v : α) :
    (jsUpsert l k v).lookup k' = if k' = k then some v else l.lookup k' := by
  induction l with
  | nil =>
    by_cases h : k' = k
    · subst h
      simp [jsUpsert, List.lookup]
    · have hf : (k' == k) = false := beq_eq_false_iff_ne.mpr h
      simp [jsUpsert, List.lookup, hf, h]
  | cons hd t ih =>
    obtain ⟨k0, v0⟩ := hd
    by_cases hk : k0 = k
    · subst hk
      by_cases h : k' = k0
      · subst h
        simp [jsUpsert, List.lookup]
      · have hf : (k' == k0) = false := beq_eq_false_iff_ne.mpr h
        simp [jsUpsert, List.lookup, hf, h]
    · by_cases h : k' = k0
      · have hf1 : (k' == k0) = true := beq_iff_eq.mpr h
        have hne : k' ≠ k := fun he => hk (h.symm.trans he)
        simp [jsUpsert, hk, List.lookup, hf1, if_neg hne]
      · have hf1 : (k' == k0) = false := beq_eq_false_iff_ne.mpr h
        simp [jsUpsert, hk, List.lookup, hf1, ih]

/-- A key present in the accumulation stays present through the fold. -/
theorem foldl_formStep_lookup_mono (l : List Param)
    (acc : List (String × JSchema)) (k : String)
    (h : ((acc.lookup k)).isSome) :
    ((l.foldl formStep acc).lookup k).isSome := by
  induction l generalizing acc with
  | nil => exact h
  | cons p t ih =>
    rw [List.foldl_cons]
    apply ih
    rw [formStep, jsUpsert_lookup]
    by_cases hk : k = p.name <;> simp [hk, h]

/-- Every listed parameter's name is present after the fold. -/
theorem foldl_formStep_lookup_mem (l : List Param)
    (acc : List (String × JSchema)) (p : Param) (hp : p ∈ l) :
    ((l.foldl formStep acc).lookup p.name).isSome := by
  induction l generalizing acc with
  | nil => simp at hp
  | cons q t ih =>
    rw [List.foldl_cons]
    rcases List.mem_cons.mp hp with h1 | h2
    · subst h1
      apply foldl_formStep_lookup_mono
      rw [formStep, jsUpsert_lookup]
      simp
    · exact ih _ h2

/-- Counterexample input for C7: a formData parameter followed by a body
parameter. -/
def c7Op : Operation :=
  { parameters := some
      [{ name := "f", pin := "formData", type := some "string" },
       { name := "payload", pin := "body" }],
    responses := [] }

/-- Claim C7 is false as stated: with a `body` parameter after the formData
entries, conversion succeeds but the body parameter replaces the
accumulated request body wholesale — the result carries only
`application/json` content and no `application/x-www-form-urlencoded`
property for the formData entry. -/
theorem convertSwagger2Operation_formData_dropped_by_body :
    ∃ op2, convertSwagger2Operation c7Op = .ok op2 ∧
      op2.requestBody = some
        { description := none, required := none,
          content := [("application/json", { schema := some emptySchema })] } ∧
      (op2.requestBody.getD {}).content.lookup
          "application/x-www-form-urlencoded" = none :=
  ⟨_, rfl, rfl, rfl⟩

/-- Claim C7 as amended (restricted to operations without a `body`
parameter): conversion succeeds, the formData entries accumulate — in
order, later same-name entries overwriting — into the properties of the
single `application/x-www-form-urlencoded` request-body schema, one
property per form field keyed by the parameter name. -/
theorem convertSwagger2Operation_formData_accumulates (op : Operation)
    (l : List Param)
    (hl : op.parameters = some l)
    (hb : ∀ p ∈ l, p.pin ≠ "body")
    (hf : ∃ p ∈ l, p.pin = "formData") :
    ∃ op2, convertSwagger2Operation op = .ok op2 ∧
      op2.requestBody = some (formBody
        ((l.filter (fun p => p.pin == "formData")).foldl formStep [])) ∧
      ∀ p ∈ l, p.pin = "formData" →
        (((l.filter (fun p => p.pin == "formData")).foldl formStep
          []).lookup p.name).isSome := by
  have hfold := convertOpParams_append_nobody l [] none hb
  rw [List.append_nil] at hfold
  rw [convertOpParams, formFold_none_of_mem l hf] at hfold
  simp only [encodeForm] at hfold
  refine ⟨{ summary := op.summary, description := op.description,
            operationId := op.operationId, tags := op.tags,
            deprecated := op.deprecated,
            parameters :=
              if 0 < (((l.filter (fun p => !(p.pin == "formData"))).map
                    convertSwagger2Parameter) ++ ([] : List Param)).length
              then some (((l.filter (fun p => !(p.pin == "formData"))).map
                    convertSwagger2Parameter) ++ ([] : List Param))
              else none,
            requestBody := some (formBody
              ((l.filter (fun p => p.pin == "formData")).foldl formStep [])),
            responses :=
              op.responses.map (fun cr => (cr.1, convertSwagger2Response cr.2)) },
    ?_, rfl, ?_⟩
  · simp only [convertSwagger2Operation, hl, hfold]
  · intro p hp hpf
    exact foldl_formStep_lookup_mem _ [] p
      (List.mem_filter.mpr ⟨hp, by simp [hpf]⟩)

/-- Witness data for C7: one formData field and one query parameter. -/
def c7GoodOp : Operation :=
  { parameters := some
      [{ name := "a", pin := "formData", type := some "string" },
       { name := "q", pin := "query" }],
    responses := [] }

/-- Witness for C7 (amended) at a body-free operation with one formData
entry. -/
theorem convertSwagger2Operation_formData_accumulates_witness :
    ∃ op2, convertSwagger2Operation c7GoodOp = .ok op2 ∧
      op2.requestBody = some (formBody
        ((((c7GoodOp.parameters).getD []).filter
          (fun p => p.pin == "formData")).foldl formStep [])) ∧
      ∀ p ∈ ((c7GoodOp.parameters).getD []), p.pin = "formData" →
        (((((c7GoodOp.parameters).getD []).filter
          (fun p => p.pin == "formData")).foldl formStep
          []).lookup p.name).isSome :=
  convertSwagger2Operation_formData_accumulates c7GoodOp _ rfl
    (by decide) (by decide)

/-! ## Claim C3: endpoint id uniqueness -/

/-- A document with two distinct paths that sanitize to the same id
segment. -/
def collidingDoc : Doc :=
  { openapi := some "3.0.0",
    paths :=
      [("/a/b", { get := some { responses := [("200", { description := some "ok" })] } }),
       ("/a.b", { get := some { responses := [("200", { description := some "ok" })] } })] }

/-- Claim C3 is false as stated: `/a/b` and `/a.b` both sanitize to `_a_b`,
so their GET endpoints share the id `GET__a_b` — ids are not pairwise
distinct for every document. -/
theorem extractEndpoints_id_collision :
    (extractEndpoints (some collidingDoc)).map Endpoint.id =
      ["GET__a_b", "GET__a_b"] ∧
    ¬ ((extractEndpoints (some collidingDoc)).map Endpoint.id).Nodup :=
  ⟨rfl, by decide⟩

/-- Splitting at a separator absent from both prefixes is unambiguous. -/
theorem append_sep_inj {α : Type} [DecidableEq α] {x : α} :
    ∀ {a b u v : List α}, x ∉ a → x ∉ b →
      a ++ x :: u = b ++ x :: v → a = b ∧ u = v := by
  intro a
  induction a with
  | nil =>
    intro b u v ha hb h
    cases b with
    | nil =>
      simp only [List.nil_append, List.cons.injEq] at h
      exact ⟨rfl, h.2⟩
    | cons c bt =>
      simp only [List.nil_append, List.cons_append, List.cons.injEq] at h
      exact absurd (by rw [h.1]; exact List.mem_cons_self c bt) hb
  | cons c ta ih =>
    intro b u v ha hb h
    cases b with
    | nil =>
      simp only [List.cons_append, List.nil_append, List.cons.injEq] at h
      exact absurd (by rw [← h.1]; exact List.mem_cons_self c ta) ha
    | cons dd bt =>
      simp only [List.cons_append, List.cons.injEq] at h
      have ha' : x ∉ ta := fun hx => ha (List.mem_cons_of_mem _ hx)
      have hb' : x ∉ bt := fun hx => hb (List.mem_cons_of_mem _ hx)
      obtain ⟨h1, h2⟩ := h
      obtain ⟨h3, h4⟩ := ih ha' hb' h2
      exact ⟨by rw [h1, h3], h4⟩

/-- No upper-cased method name contains an underscore. -/
theorem methods_upper_no_underscore :
    ∀ m ∈ methodsOrder, '_' ∉ (upperS m).data := by decide

/-- Upper-casing is injective on the method list. -/
theorem methods_upper_inj :
    ∀ m1 ∈ methodsOrder, ∀ m2 ∈ methodsOrder,
      upperS m1 = upperS m2 → m1 = m2 := by decide

/-- The id string determines the method and the sanitized path. -/
theorem endpoint_id_encode_inj (m1 m2 p1 p2 : String)
    (h1 : m1 ∈ methodsOrder) (h2 : m2 ∈ methodsOrder)
    (h : upperS m1 ++ "_" ++ sanitizeId p1 = upperS m2 ++ "_" ++ sanitizeId p2) :
    m1 = m2 ∧ sanitizeId p1 = sanitizeId p2 := by
  have hd : (upperS m1).data ++ '_' :: (sanitizeId p1).data =
      (upperS m2).data ++ '_' :: (sanitizeId p2).data := by
    have hc := congrArg String.data h
    simpa [String.data_append] using hc
  have hsep := append_sep_inj (methods_upper_no_underscore m1 h1)
    (methods_upper_no_underscore m2 h2) hd
  constructor
  · exact methods_upper_inj m1 h1 m2 h2 (congrArg String.mk hsep.1)
  · exact congrArg String.mk hsep.2

/-- The endpoint id list, written as the flat map of the id encoder over
present (path, method) pairs. -/
theorem extractEndpoints_ids (d : Doc) :
    (extractEndpoints (some d)).map Endpoint.id =
      d.paths.flatMap (fun pr =>
        methodsOrder.filterMap (fun m =>
          (pathItemGet pr.2 m).map
            (fun _ => upperS m ++ "_" ++ sanitizeId pr.1))) := by
  unfold extractEndpoints
  rw [List.map_flatMap]
  congr 1
  funext pr
  rw [List.map_filterMap]
  congr 1
  funext m
  cases pathItemGet pr.2 m <;> rfl

/-- Claim C3 as amended: endpoint ids are pairwise distinct for every
document whose paths remain pairwise distinct after replacing every
non-alphanumeric character with an underscore (distinct paths that collide
after replacement, such as `/a/b` and `/a.b`, share an id). -/
theorem extractEndpoints_ids_nodup (d : Doc)
    (h : (d.paths.map (fun pr => sanitizeId pr.1)).Nodup) :
    ((extractEndpoints (some d)).map Endpoint.id).Nodup := by
  rw [extractEndpoints_ids]
  rw [List.nodup_flatMap]
  constructor
  · intro pr hpr
    show List.Pairwise (· ≠ ·) _
    have hmo : methodsOrder.Pairwise
        (fun m1 m2 => m1 ∈ methodsOrder ∧ m2 ∈ methodsOrder ∧ m1 ≠ m2) := by
      apply List.Pairwise.imp_of_mem ?_
        (show methodsOrder.Pairwise (· ≠ ·) from by decide)
      intro a b ha hb hne
      exact ⟨ha, hb, hne⟩
    refine List.Pairwise.filterMap _ ?_ hmo
    intro m1 m2 hr b hb b' hb'
    obtain ⟨hm1, hm2, hne⟩ := hr
    rw [Option.mem_map] at hb hb'
    obtain ⟨o1, _, hb⟩ := hb
    obtain ⟨o2, _, hb'⟩ := hb'
    subst hb
    subst hb'
    intro he
    exact hne (endpoint_id_encode_inj m1 m2 pr.1 pr.1 hm1 hm2 he).1
  · have hp : d.paths.Pairwise
        (fun a b => sanitizeId a.1 ≠ sanitizeId b.1) :=
      List.pairwise_map.mp h
    apply hp.imp
    intro a b hne
    intro x hxa hxb
    rw [List.mem_filterMap] at hxa hxb
    obtain ⟨m1, hm1, hx1⟩ := hxa
    obtain ⟨m2, hm2, hx2⟩ := hxb
    cases ho1 : pathItemGet a.2 m1 with
    | none => rw [ho1] at hx1; exact absurd hx1 (by simp)
    | some o1 =>
      rw [ho1] at hx1
      simp only [Option.map_some', Option.some.injEq] at hx1
      cases ho2 : pathItemGet b.2 m2 with
      | none => rw [ho2] at hx2; exact absurd hx2 (by simp)
      | some o2 =>
        rw [ho2] at hx2
        simp only [Option.map_some', Option.some.injEq] at hx2
        exact hne (endpoint_id_encode_inj m1 m2 a.1 b.1 hm1 hm2
          (hx1.trans hx2.symm)).2

/-- Witness data for C3 (amended): two paths with distinct sanitized
forms. -/
def distinctPathsDoc : Doc :=
  { openapi := some "3.0.0",
    paths :=
      [("/a", { get := some { responses := [("200", { description := some "ok" })] } }),
       ("/b", { post := some { responses := [("201", { description := some "created" })] } })] }

/-- Witness for C3 (amended) at a document with distinct sanitized paths. -/
theorem extractEndpoints_ids_nodup_witness :
    (distinctPathsDoc.paths.map (fun pr => sanitizeId pr.1)).Nodup ∧
    ((extractEndpoints (some distinctPathsDoc)).map Endpoint.id).Nodup :=
  ⟨by decide, extractEndpoints_ids_nodup distinctPathsDoc (by decide)⟩

end SpecMaster
